import Mathlib

/-!
Verification of the status-reconciliation engine of `scripts/pr_agent.py`.

The Python source is shallowly embedded: every fallible platform call is a
parameter of type `Option _` (the value `none` models a failed call, which the
Python HTTP helper reports as `None`), and the agent's side effects are made
explicit as values of an `Action` trace type.  JSON dictionaries become
structures with `Option` fields for optional/nullable members; Python set
operations become `Finset String`.
-/

set_option maxRecDepth 4000

/-- A check run as read from the platform: a completion state (`status`) and a
conclusion.  Both are nullable in the JSON payload, hence `Option`.
Mirrors the fields accessed by `_ci_status` (`r.get("status")`,
`r.get("conclusion")`). -/
structure CheckRun where
  status : Option String
  conclusion : Option String
deriving DecidableEq

/-- Python truthiness of `r.get("conclusion")`: `None` and the empty string are
falsy, every other string is truthy. -/
def py_truthy (o : Option String) : Bool :=
  match o with
  | none => false
  | some s => s != ""

/-- The set comprehension of line 129:
`{r.get("conclusion") for r in runs if r.get("conclusion")}` — the set of
truthy conclusion values of the given runs. -/
def run_conclusions (runs : List CheckRun) : Finset String :=
  (runs.filterMap (fun r => if py_truthy r.conclusion then r.conclusion else none)).toFinset

/-- `_ci_status` (lines 118–136).  The argument is the decoded response of the
check-runs GET: `none` models a failed call, `some runs` models a payload whose
`check_runs` field holds `runs` (a missing field defaults to the empty list,
which the embedding represents as `some []`). -/
def _ci_status (result : Option (List CheckRun)) : String :=
  match result with
  | none => "pending"
  | some runs =>
    if runs.isEmpty then "pending"
    else if runs.any (fun r => r.status != some "completed") then "pending"
    else
      let conclusions := run_conclusions runs
      if conclusions = ∅ then "pending"
      else if "failure" ∈ conclusions ∨ "timed_out" ∈ conclusions ∨ "cancelled" ∈ conclusions then "failing"
      else if ∀ c ∈ conclusions, c ∈ ({"success", "neutral", "skipped"} : Finset String) then "passing"
      else "pending"

/-- The classifier as the specification words it (rules 1–6 of §4.1, and claim
C1): conclusions are collected "discarding absent/null conclusions" — only a
missing/null conclusion is dropped, any string value (including `""`) is kept. -/
def classify (runs : List CheckRun) : String :=
  if runs.isEmpty then "pending"
  else if runs.any (fun r => r.status != some "completed") then "pending"
  else
    let cs := (runs.filterMap (fun r => r.conclusion)).toFinset
    if cs = ∅ then "pending"
    else if (cs ∩ ({"failure", "timed_out", "cancelled"} : Finset String)).Nonempty then "failing"
    else if cs.Nonempty ∧ cs ⊆ ({"success", "neutral", "skipped"} : Finset String) then "passing"
    else "pending"

/-- The classifier rules amended to drop empty-string conclusions as well as
absent/null ones (the behaviour of the Python truthiness test on line 129). -/
def classify_drop_empty (runs : List CheckRun) : String :=
  if runs.isEmpty then "pending"
  else if runs.any (fun r => r.status != some "completed") then "pending"
  else
    let cs := ((runs.filterMap (fun r => r.conclusion)).toFinset).erase ""
    if cs = ∅ then "pending"
    else if (cs ∩ ({"failure", "timed_out", "cancelled"} : Finset String)).Nonempty then "failing"
    else if cs.Nonempty ∧ cs ⊆ ({"success", "neutral", "skipped"} : Finset String) then "passing"
    else "pending"

/-- Label constants (lines 38–42). -/
def _LABEL_PASSING : String := "ci-passing"

def _LABEL_FAILING : String := "ci-failing"

def _LABEL_NEEDS_REVIEW : String := "needs-review"

def _LABEL_AUTO_MERGE : String := "auto-merge"

def _CI_LABELS : Finset String := {_LABEL_PASSING, _LABEL_FAILING, _LABEL_NEEDS_REVIEW}

/-- The stale-label set of line 107.  Python parses
`existing & _CI_LABELS - {new_label}` as `existing & (_CI_LABELS - {new_label})`
because `-` binds tighter than `&`. -/
def reconcile_toRemove (existing : Finset String) (new_label : String) : Finset String :=
  existing ∩ (_CI_LABELS \ {new_label})

/-- The additions of lines 110–111: the target label is added exactly when it
is not already present. -/
def reconcile_toAdd (existing : Finset String) (new_label : String) : Finset String :=
  if new_label ∈ existing then ∅ else {new_label}

/-- The PR's label set after the computed delta is applied on the platform:
stale labels removed, then the target added when missing. -/
def apply_reconcile (existing : Finset String) (new_label : String) : Finset String :=
  (existing \ reconcile_toRemove existing new_label) ∪ reconcile_toAdd existing new_label

/-- One platform side effect issued by the agent, as a trace element. -/
inductive AgentAction where
  | deleteLabel (pr : Nat) (lbl : String)
  | addLabels (pr : Nat) (lbls : List String)
  | patchComment (commentId : Nat) (body : String)
  | postComment (pr : Nat) (body : String)
  | mergePut (pr : Nat) (method : String) (commitTitle : String)
  | createLabel (lbl : String) (color : String)
  | keyErrorCrash
deriving DecidableEq

/-- `_set_ci_label` (lines 106–111) as the list of platform requests it
issues: one DELETE per stale label, then one POST when the target label is
missing. -/
def _set_ci_label (pr_number : Nat) (existing : Finset String) (new_label : String) : List AgentAction :=
  (((reconcile_toRemove existing new_label).sort (fun a b => a ≤ b)).map (fun lbl => AgentAction.deleteLabel pr_number lbl))
    ++ (if new_label ∈ existing then [] else [AgentAction.addLabels pr_number [new_label]])

/-- The set of label names deleted from PR `n` by a trace. -/
def deleted_labels (n : Nat) (acts : List AgentAction) : Finset String :=
  (acts.filterMap (fun a =>
    match a with
    | AgentAction.deleteLabel m l => if m = n then some l else none
    | _ => none)).toFinset

/-- The set of label names added to PR `n` by a trace. -/
def added_labels (n : Nat) (acts : List AgentAction) : Finset String :=
  ((acts.filterMap (fun a =>
    match a with
    | AgentAction.addLabels m ls => if m = n then some ls else none
    | _ => none)).flatten).toFinset

/-- The bot-comment marker constant (line 36). -/
def _BOT_COMMENT_MARKER : String := "<!-- pr-agent-bot -->"

/-- `needle.isPrefixOf`-based substring test on character lists, modelling
Python's `needle in hay` for strings. -/
def has_sub (hay needle : List Char) : Bool :=
  match hay with
  | [] => needle.isEmpty
  | _ :: t => needle.isPrefixOf hay || has_sub t needle

/-- Python's `needle in hay` on strings. -/
def str_contains (hay needle : String) : Bool :=
  has_sub hay.data needle.data

/-- An issue comment: an identifier and a body. -/
structure IssueComment where
  id : Nat
  body : String
deriving DecidableEq

/-- Whether a comment is "owned" by the agent: its body contains the marker
(the test of line 148). -/
def is_bot_comment (c : IssueComment) : Bool :=
  str_contains c.body _BOT_COMMENT_MARKER

/-- `_bot_comment_id` (lines 143–150): the id of the first comment containing
the marker.  The argument is the decoded comment-listing response; `none`
models a failed call (`not isinstance(comments, list)` in the source). -/
def _bot_comment_id (comments : Option (List IssueComment)) : Option Nat :=
  match comments with
  | none => none
  | some cs => (cs.find? is_bot_comment).map IssueComment.id

/-- The composed comment body `marker + "\n" + body` of line 154. -/
def full_body (body : String) : String :=
  _BOT_COMMENT_MARKER ++ "\n" ++ body

/-- `_upsert_comment` (lines 153–159) as the single platform request it
issues.  Python's `if comment_id:` is truthiness: both `None` and the id `0`
take the create branch. -/
def _upsert_comment (pr_number : Nat) (body : String) (comments : Option (List IssueComment)) : AgentAction :=
  match _bot_comment_id comments with
  | some i => if i = 0 then AgentAction.postComment pr_number (full_body body)
              else AgentAction.patchComment i (full_body body)
  | none => AgentAction.postComment pr_number (full_body body)

/-- Effect of one comment action on the platform's comment list for a PR.
A PATCH rewrites the body of the comment carrying the patched id; a POST
appends a new comment whose id `fresh_id` is chosen by the platform. -/
def apply_comment_action (cs : List IssueComment) (fresh_id : Nat) (a : AgentAction) : List IssueComment :=
  match a with
  | AgentAction.patchComment i b => cs.map (fun c => if c.id = i then ⟨c.id, b⟩ else c)
  | AgentAction.postComment _ b => cs ++ [⟨fresh_id, b⟩]
  | _ => cs

/-- One upsert round-trip: list the comments (completely), compute the action,
apply it. -/
def upsert_apply (cs : List IssueComment) (fresh_id : Nat) (pr_number : Nat) (body : String) : List IssueComment :=
  apply_comment_action cs fresh_id (_upsert_comment pr_number body (some cs))

/-- A pull request as read by `_handle_pr`: number, title, head SHA and the
label-name set snapshot taken at the start of processing
(`_current_labels`, lines 102–103). -/
structure PullReq where
  number : Nat
  title : String
  head_sha : String
  labels : Finset String
deriving DecidableEq

/-- The `label_map` dict of lines 177–181 as a partial lookup; `none` models a
`KeyError`. -/
def label_map (status : String) : Option String :=
  if status = "passing" then some _LABEL_PASSING
  else if status = "failing" then some _LABEL_FAILING
  else if status = "pending" then some _LABEL_NEEDS_REVIEW
  else none

/-- The `status_icon` dict of line 185 as a partial lookup. -/
def status_icon (status : String) : Option String :=
  if status = "passing" then some "✅"
  else if status = "failing" then some "❌"
  else if status = "pending" then some "⏳"
  else none

/-- The comment template of lines 186–195. -/
def comment_body (number : Nat) (sha : String) (status icon target_label : String) : String :=
  "**Automated PR Status** " ++ icon ++ "\n\n"
    ++ "| Field | Value |\n"
    ++ "|---|---|\n"
    ++ "| PR | #" ++ toString number ++ " |\n"
    ++ "| Head SHA | `" ++ sha.take 7 ++ "` |\n"
    ++ "| CI Status | **" ++ status ++ "** |\n"
    ++ "| Label applied | `" ++ target_label ++ "` |\n\n"
    ++ "*Updated automatically by the PR agent.*"

/-- The generated squash-merge commit title of line 202. -/
def merge_title (number : Nat) (title : String) : String :=
  "Auto-merge PR #" ++ toString number ++ ": " ++ title

/-- `_handle_pr` (lines 166–208) as the trace of platform requests it issues
for one PR, given the decoded responses of the check-runs GET and of the
comment listing.  A failed dict lookup (impossible for the statuses
`_ci_status` produces) is the `keyErrorCrash` trace. -/
def _handle_pr (pr : PullReq) (check_resp : Option (List CheckRun)) (comments_resp : Option (List IssueComment)) : List AgentAction :=
  let status := _ci_status check_resp
  match label_map status with
  | none => [AgentAction.keyErrorCrash]
  | some target_label =>
    let label_acts := _set_ci_label pr.number pr.labels target_label
    match status_icon status with
    | none => label_acts ++ [AgentAction.keyErrorCrash]
    | some icon =>
      label_acts
        ++ [_upsert_comment pr.number (comment_body pr.number pr.head_sha status icon target_label) comments_resp]
        ++ (if status = "passing" ∧ _LABEL_AUTO_MERGE ∈ pr.labels then
              [AgentAction.mergePut pr.number "squash" (merge_title pr.number pr.title)]
            else [])

/-- The decoded response of the merge PUT: the optional `merged` flag and the
optional `message` field of the platform's JSON reply. -/
structure MergeResp where
  merged : Option Bool
  message : Option String
deriving DecidableEq

/-- Result of the merge-outcome handling. -/
inductive MergeOutcome where
  | merged
  | failed (msg : String)
deriving DecidableEq

/-- Lines 204–208: success only when the response is a dict with a truthy
`merged` flag; otherwise the failure is reported with the platform message,
`"unknown error"` when the dict has no message, or `"no response"` when the
call failed. -/
def _merge_outcome (resp : Option MergeResp) : MergeOutcome :=
  match resp with
  | some r => if r.merged = some true then MergeOutcome.merged
              else MergeOutcome.failed (r.message.getD "unknown error")
  | none => MergeOutcome.failed "no response"

/-- `_ensure_label_exists` (lines 96–99) as a trace: the label is created
exactly when the GET found nothing (which includes a failed GET). -/
def _ensure_label_exists (label color : String) (get_result : Option Unit) : List AgentAction :=
  match get_result with
  | none => [AgentAction.createLabel label color]
  | some _ => []

/-- Result of the PR-listing loop of `main` (lines 226–236). -/
inductive FetchResult where
  | fatalExit
  | fetched (prs : List PullReq)
  | fuelOut
deriving DecidableEq

/-- The pagination loop of `main` (lines 226–236): page responses are read in
order; a failed page (`not isinstance(page_data, list)`) exits the run with
code 1; a short page (< 100 entries) ends the loop.  `fuel` bounds the number
of iterations so the loop is total; `fuelOut` marks exhaustion. -/
def fetch_open_prs (pages : Nat → Option (List PullReq)) : Nat → Nat → List PullReq → FetchResult
  | 0, _, _ => FetchResult.fuelOut
  | fuel + 1, page, acc =>
    match pages page with
    | none => FetchResult.fatalExit
    | some page_data =>
      if page_data.length < 100 then FetchResult.fetched (acc ++ page_data)
      else fetch_open_prs pages fuel (page + 1) (acc ++ page_data)

/-- `main`'s startup (lines 211–236): the two fatal configuration
preconditions, then the PR-listing loop starting at page 1. -/
def main_fetch (token repo : String) (pages : Nat → Option (List PullReq)) (fuel : Nat) : FetchResult :=
  if token = "" then FetchResult.fatalExit
  else if repo = "" then FetchResult.fatalExit
  else fetch_open_prs pages fuel 1 []

/-! ## Helper lemmas -/

lemma run_conclusions_eq_erase (runs : List CheckRun) :
    run_conclusions runs = ((runs.filterMap (fun r => r.conclusion)).toFinset).erase "" := by
  ext c
  simp only [run_conclusions, List.mem_toFinset, List.mem_filterMap, Finset.mem_erase]
  constructor
  · rintro ⟨r, hr, h⟩
    by_cases hp : py_truthy r.conclusion
    · rw [if_pos hp] at h
      rw [h] at hp
      refine ⟨?_, r, hr, h⟩
      simpa [py_truthy] using hp
    · rw [if_neg hp] at h
      exact absurd h (by simp)
  · rintro ⟨hne, r, hr, h⟩
    refine ⟨r, hr, ?_⟩
    rw [h]
    simp [py_truthy, hne]

lemma fail_mem_iff_inter_nonempty (cs : Finset String) :
    ("failure" ∈ cs ∨ "timed_out" ∈ cs ∨ "cancelled" ∈ cs) ↔
      (cs ∩ ({"failure", "timed_out", "cancelled"} : Finset String)).Nonempty := by
  constructor
  · rintro (h | h | h)
    · exact ⟨"failure", Finset.mem_inter.mpr ⟨h, by decide⟩⟩
    · exact ⟨"timed_out", Finset.mem_inter.mpr ⟨h, by decide⟩⟩
    · exact ⟨"cancelled", Finset.mem_inter.mpr ⟨h, by decide⟩⟩
  · rintro ⟨x, hx⟩
    rw [Finset.mem_inter] at hx
    obtain ⟨hxs, hxf⟩ := hx
    simp only [Finset.mem_insert, Finset.mem_singleton] at hxf
    rcases hxf with rfl | rfl | rfl
    · exact Or.inl hxs
    · exact Or.inr (Or.inl hxs)
    · exact Or.inr (Or.inr hxs)

/-! ## C1 — the classifier against the spec's ordered rules -/

/-- C1 (counterexample): on the run list
`[{completed, success}, {completed, ""}]` the code returns `passing`, while the
claim's ordered rules — which discard only absent/null conclusions and so keep
the empty string in the conclusion set — return `pending`.  The claim as
stated is therefore false on the code. -/
theorem classifier_keeps_empty_string_counterexample :
    _ci_status (some [⟨some "completed", some "success"⟩, ⟨some "completed", some ""⟩]) = "passing"
      ∧ classify [⟨some "completed", some "success"⟩, ⟨some "completed", some ""⟩] = "pending" :=
  ⟨by decide, by decide⟩

/-- C1 (amended): for every sequence of check runs, `_ci_status` returns
exactly per the ordered rules once rule 3 is amended to discard empty-string
conclusions in addition to absent/null ones. -/
theorem ci_status_eq_rules_dropping_empty (runs : List CheckRun) :
    _ci_status (some runs) = classify_drop_empty runs := by
  simp only [_ci_status, classify_drop_empty, run_conclusions_eq_erase]
  by_cases h1 : runs.isEmpty
  · simp [h1]
  · simp only [if_neg h1]
    by_cases h2 : runs.any (fun r => r.status != some "completed")
    · simp [h2]
    · simp only [if_neg h2]
      set cs := ((runs.filterMap fun r => r.conclusion).toFinset).erase "" with hcs
      by_cases h3 : cs = ∅
      · simp [h3]
      · simp only [if_neg h3]
        have hne : cs.Nonempty := Finset.nonempty_iff_ne_empty.mpr h3
        by_cases h4 : "failure" ∈ cs ∨ "timed_out" ∈ cs ∨ "cancelled" ∈ cs
        · rw [if_pos h4, if_pos ((fail_mem_iff_inter_nonempty cs).mp h4)]
        · rw [if_neg h4, if_neg (fun hc => h4 ((fail_mem_iff_inter_nonempty cs).mpr hc))]
          by_cases h5 : ∀ c ∈ cs, c ∈ ({"success", "neutral", "skipped"} : Finset String)
          · rw [if_pos h5, if_pos ⟨hne, Finset.subset_iff.mpr h5⟩]
          · rw [if_neg h5, if_neg (fun hc => h5 (fun c hc' => hc.2 hc'))]

/-! ## C10 — empty-string conclusions are discarded like missing ones -/

/-- Replace every empty-string conclusion by a missing conclusion. -/
def blank_empty_conclusions (runs : List CheckRun) : List CheckRun :=
  runs.map (fun r => if r.conclusion = some "" then { r with conclusion := none } else r)

/-- C10: a completed check run whose conclusion is the empty string is
treated by the classifier exactly as if it had no conclusion at all —
classification is invariant under nulling out empty-string conclusions — and
in particular `[{completed, success}, {completed, ""}]` classifies as
`passing`. -/
theorem empty_string_conclusion_discarded :
    (∀ runs : List CheckRun, _ci_status (some (blank_empty_conclusions runs)) = _ci_status (some runs))
      ∧ _ci_status (some [⟨some "completed", some "success"⟩, ⟨some "completed", some ""⟩]) = "passing" := by
  constructor
  · intro runs
    have hempty : (blank_empty_conclusions runs).isEmpty = runs.isEmpty := by
      cases runs <;> rfl
    have hany : (blank_empty_conclusions runs).any (fun r => r.status != some "completed")
        = runs.any (fun r => r.status != some "completed") := by
      unfold blank_empty_conclusions
      rw [List.any_map]
      congr 1
      funext r
      by_cases h : r.conclusion = some "" <;> simp [h]
    have hconc : run_conclusions (blank_empty_conclusions runs) = run_conclusions runs := by
      unfold run_conclusions blank_empty_conclusions
      rw [List.filterMap_map]
      refine congrArg List.toFinset (congrArg (fun g => List.filterMap g runs) (funext fun r => ?_))
      by_cases h : r.conclusion = some "" <;> simp [h, py_truthy]
    simp only [_ci_status, hempty, hany, hconc]
  · decide

/-! ## Label reconciler -/

lemma reconcile_toRemove_grouping (existing : Finset String) (t : String) :
    reconcile_toRemove existing t = (existing ∩ _CI_LABELS) \ {t} := by
  ext x
  simp only [reconcile_toRemove, Finset.mem_inter, Finset.mem_sdiff, Finset.mem_singleton]
  tauto

lemma apply_reconcile_inter_ci (L : Finset String) (t : String) (ht : t ∈ _CI_LABELS) :
    apply_reconcile L t ∩ _CI_LABELS = {t} := by
  ext x
  simp only [apply_reconcile, reconcile_toRemove, reconcile_toAdd, Finset.mem_inter,
    Finset.mem_union, Finset.mem_sdiff, Finset.mem_singleton]
  by_cases hL : t ∈ L
  · simp only [if_pos hL, Finset.not_mem_empty, or_false]
    constructor
    · rintro ⟨⟨hxL, hnot⟩, hxCI⟩
      by_contra hxt
      exact hnot ⟨hxL, hxCI, hxt⟩
    · rintro rfl
      exact ⟨⟨hL, fun hcon => hcon.2.2 rfl⟩, ht⟩
  · simp only [if_neg hL, Finset.mem_singleton]
    constructor
    · rintro ⟨⟨hxL, hnot⟩ | rfl, hxCI⟩
      · by_contra hxt
        exact hnot ⟨hxL, hxCI, hxt⟩
      · rfl
    · rintro rfl
      exact ⟨Or.inr rfl, ht⟩

/-- C3: the reconciler's removal set is exactly
`(currentLabels ∩ CI-state-labels) − {targetLabel}` and its addition set is
`{targetLabel}` when the target is missing from the current labels and empty
otherwise, read off the request trace `_set_ci_label` issues. -/
theorem reconcile_delta_sets (n : Nat) (existing : Finset String) (t : String)
    (ht : t ∈ _CI_LABELS) :
    deleted_labels n (_set_ci_label n existing t) = (existing ∩ _CI_LABELS) \ {t}
    ∧ added_labels n (_set_ci_label n existing t)
        = (if t ∈ existing then (∅ : Finset String) else {t}) := by
  constructor
  · unfold deleted_labels _set_ci_label
    rw [List.filterMap_append, List.filterMap_map]
    have h2 : (List.filterMap (fun a =>
        match a with
        | AgentAction.deleteLabel m l => if m = n then some l else none
        | _ => none)
        (if t ∈ existing then ([] : List AgentAction) else [AgentAction.addLabels n [t]])) = [] := by
      split <;> simp
    rw [h2, List.append_nil]
    have h3 : ((fun a =>
        match a with
        | AgentAction.deleteLabel m l => if m = n then some l else none
        | _ => none) ∘ (fun lbl => AgentAction.deleteLabel n lbl)) = some := by
      funext lbl
      simp
    rw [h3, List.filterMap_some, Finset.sort_toFinset]
    exact reconcile_toRemove_grouping existing t
  · unfold added_labels _set_ci_label
    rw [List.filterMap_append, List.filterMap_map]
    have h3 : ((fun a =>
        match a with
        | AgentAction.addLabels m ls => if m = n then some ls else none
        | _ => none) ∘ (fun lbl => AgentAction.deleteLabel n lbl))
        = (fun _ => (none : Option (List String))) := by
      funext lbl
      simp
    rw [h3]
    by_cases hmem : t ∈ existing <;> simp [hmem]

/-- C4: after applying the reconciler's delta, the intersection of the label
set with the three CI-state labels is exactly the singleton of the target
label (and so has size exactly 1). -/
theorem reconcile_label_exclusivity (L : Finset String) (t : String) (ht : t ∈ _CI_LABELS) :
    apply_reconcile L t ∩ _CI_LABELS = {t} ∧ (apply_reconcile L t ∩ _CI_LABELS).card = 1 := by
  have h := apply_reconcile_inter_ci L t ht
  exact ⟨h, by rw [h]; exact Finset.card_singleton t⟩

/-- C7: reconciliation is idempotent — after applying the delta, a second
reconcile with the same target computes an empty removal set and an empty
addition set. -/
theorem reconcile_idempotent (L : Finset String) (t : String) (ht : t ∈ _CI_LABELS) :
    reconcile_toRemove (apply_reconcile L t) t = ∅
    ∧ reconcile_toAdd (apply_reconcile L t) t = ∅ := by
  have h := apply_reconcile_inter_ci L t ht
  constructor
  · rw [reconcile_toRemove_grouping, h, Finset.sdiff_self]
  · have htA : t ∈ apply_reconcile L t := by
      have hm : t ∈ apply_reconcile L t ∩ _CI_LABELS := by
        rw [h]
        exact Finset.mem_singleton_self t
      exact (Finset.mem_inter.mp hm).1
    simp [reconcile_toAdd, htA]

/-- C8: no label outside the three CI-state labels — in particular
`auto-merge` — is ever in the reconciler's removal or addition set, and every
non-CI label is untouched by applying the delta. -/
theorem reconcile_frame_nonci_labels (L : Finset String) (t x : String)
    (ht : t ∈ _CI_LABELS) (hx : x ∉ _CI_LABELS) :
    (x ∉ reconcile_toRemove L t ∧ x ∉ reconcile_toAdd L t)
    ∧ (_LABEL_AUTO_MERGE ∉ reconcile_toRemove L t ∧ _LABEL_AUTO_MERGE ∉ reconcile_toAdd L t)
    ∧ (x ∈ apply_reconcile L t ↔ x ∈ L) := by
  have key : ∀ y, y ∉ _CI_LABELS →
      (y ∉ reconcile_toRemove L t ∧ y ∉ reconcile_toAdd L t
        ∧ (y ∈ apply_reconcile L t ↔ y ∈ L)) := by
    intro y hy
    have hyt : y ≠ t := fun hcon => hy (hcon ▸ ht)
    have hrem : y ∉ reconcile_toRemove L t := by
      simp only [reconcile_toRemove, Finset.mem_inter, Finset.mem_sdiff, Finset.mem_singleton]
      rintro ⟨-, hCI, -⟩
      exact hy hCI
    have hadd : y ∉ reconcile_toAdd L t := by
      unfold reconcile_toAdd
      split
      · exact Finset.not_mem_empty y
      · simp [hyt]
    refine ⟨hrem, hadd, ?_⟩
    simp only [apply_reconcile, Finset.mem_union, Finset.mem_sdiff]
    constructor
    · rintro (⟨hyL, -⟩ | hyA)
      · exact hyL
      · exact absurd hyA hadd
    · intro hyL
      exact Or.inl ⟨hyL, hrem⟩
  have ham : _LABEL_AUTO_MERGE ∉ _CI_LABELS := by decide
  obtain ⟨k1, k2, k3⟩ := key x hx
  obtain ⟨m1, m2, -⟩ := key _LABEL_AUTO_MERGE ham
  exact ⟨⟨k1, k2⟩, ⟨m1, m2⟩, k3⟩

/-! ## Merge gating -/

lemma ci_status_range (result : Option (List CheckRun)) :
    _ci_status result = "passing" ∨ _ci_status result = "failing"
      ∨ _ci_status result = "pending" := by
  rcases result with _ | runs
  · exact Or.inr (Or.inr rfl)
  · simp only [_ci_status]
    split_ifs <;> simp

lemma mergePut_not_mem_set_ci_label (n : Nat) (L : Finset String) (t : String)
    (n' : Nat) (m s : String) :
    AgentAction.mergePut n' m s ∉ _set_ci_label n L t := by
  intro h
  unfold _set_ci_label at h
  rcases List.mem_append.mp h with h | h
  · obtain ⟨x, -, hx⟩ := List.mem_map.mp h
    exact AgentAction.noConfusion hx
  · by_cases hmem : t ∈ L
    · simp [hmem] at h
    · simp [hmem] at h

lemma upsert_ne_mergePut (pr : Nat) (b : String) (c : Option (List IssueComment))
    (n : Nat) (m s : String) :
    _upsert_comment pr b c ≠ AgentAction.mergePut n m s := by
  unfold _upsert_comment
  rcases h : _bot_comment_id c with _ | i
  · simp [h]
  · simp only [h]
    by_cases hi : i = 0 <;> simp [hi]

/-- C2: for every PR (and decoded check-run/comment responses), `_handle_pr`
issues a merge request if and only if the computed CI state is `passing` and
the `auto-merge` label is in the label set read at the start of processing;
and every merge request it issues is for that PR, uses the squash method, and
carries the commit title `Auto-merge PR #<number>: <title>`. -/
theorem merge_iff_passing_and_auto_merge_label (pr : PullReq)
    (cr : Option (List CheckRun)) (cm : Option (List IssueComment)) :
    ((∃ m t, AgentAction.mergePut pr.number m t ∈ _handle_pr pr cr cm) ↔
      (_ci_status cr = "passing" ∧ _LABEL_AUTO_MERGE ∈ pr.labels))
    ∧ (∀ n m t, AgentAction.mergePut n m t ∈ _handle_pr pr cr cm →
        n = pr.number ∧ m = "squash" ∧ t = merge_title pr.number pr.title) := by
  have main : ∀ status, _ci_status cr = status →
      (status = "passing" ∨ status = "failing" ∨ status = "pending") →
      (((∃ m t, AgentAction.mergePut pr.number m t ∈ _handle_pr pr cr cm) ↔
        (status = "passing" ∧ _LABEL_AUTO_MERGE ∈ pr.labels))
      ∧ (∀ n m t, AgentAction.mergePut n m t ∈ _handle_pr pr cr cm →
          n = pr.number ∧ m = "squash" ∧ t = merge_title pr.number pr.title)) := by
    intro status hs hrange
    have hmerge_list : _handle_pr pr cr cm =
        _set_ci_label pr.number pr.labels ((label_map status).getD "")
          ++ [_upsert_comment pr.number
                (comment_body pr.number pr.head_sha status ((status_icon status).getD "")
                  ((label_map status).getD "")) cm]
          ++ (if status = "passing" ∧ _LABEL_AUTO_MERGE ∈ pr.labels then
                [AgentAction.mergePut pr.number "squash" (merge_title pr.number pr.title)]
              else []) := by
      unfold _handle_pr
      rw [hs]
      rcases hrange with rfl | rfl | rfl <;> simp [label_map, status_icon]
    rw [hmerge_list]
    constructor
    · constructor
      · rintro ⟨m, t, hmem⟩
        rcases List.mem_append.mp hmem with hmem | hmem
        · rcases List.mem_append.mp hmem with hmem | hmem
          · exact absurd hmem (mergePut_not_mem_set_ci_label _ _ _ _ _ _)
          · rw [List.mem_singleton] at hmem
            exact absurd hmem.symm (upsert_ne_mergePut _ _ _ _ _ _)
        · by_cases hcond : status = "passing" ∧ _LABEL_AUTO_MERGE ∈ pr.labels
          · exact hcond
          · simp [hcond] at hmem
      · intro hcond
        refine ⟨"squash", merge_title pr.number pr.title, ?_⟩
        apply List.mem_append.mpr
        right
        simp [hcond]
    · intro n m t hmem
      rcases List.mem_append.mp hmem with hmem | hmem
      · rcases List.mem_append.mp hmem with hmem | hmem
        · exact absurd hmem (mergePut_not_mem_set_ci_label _ _ _ _ _ _)
        · rw [List.mem_singleton] at hmem
          exact absurd hmem.symm (upsert_ne_mergePut _ _ _ _ _ _)
      · by_cases hcond : status = "passing" ∧ _LABEL_AUTO_MERGE ∈ pr.labels
        · simp only [if_pos hcond, List.mem_singleton] at hmem
          cases hmem
          exact ⟨rfl, rfl, rfl⟩
        · simp [hcond] at hmem
  have h := main (_ci_status cr) rfl (ci_status_range cr)
  exact ⟨h.1, h.2⟩

/-- C2 witness: a passing PR carrying `auto-merge` gets its squash-merge
request. -/
theorem merge_iff_passing_and_auto_merge_label_witness :
    ∃ m t, AgentAction.mergePut 7 m t ∈
      _handle_pr ⟨7, "T", "abcdef1234", {"auto-merge"}⟩
        (some [⟨some "completed", some "success"⟩]) none :=
  (merge_iff_passing_and_auto_merge_label ⟨7, "T", "abcdef1234", {"auto-merge"}⟩
    (some [⟨some "completed", some "success"⟩]) none).1.mpr ⟨by decide, by decide⟩

/-! ## Merge outcome handling -/

/-- C9: the merge is reported successful only when the decoded response
explicitly carries a true `merged` flag; a failed call is reported as
`"no response"`, and any other response is reported with the platform message
or the `"unknown error"` fallback. -/
theorem merge_outcome_classification (resp : Option MergeResp) :
    (_merge_outcome resp = MergeOutcome.merged ↔ ∃ r, resp = some r ∧ r.merged = some true)
    ∧ (resp = none → _merge_outcome resp = MergeOutcome.failed "no response")
    ∧ (∀ r, resp = some r → r.merged ≠ some true →
        _merge_outcome resp = MergeOutcome.failed (r.message.getD "unknown error")) := by
  rcases resp with _ | r
  · refine ⟨by simp [_merge_outcome], fun _ => rfl, ?_⟩
    rintro r ⟨⟩
  · refine ⟨?_, by rintro ⟨⟩, ?_⟩
    · by_cases hm : r.merged = some true
      · simp only [_merge_outcome, if_pos hm]
        exact ⟨fun _ => ⟨r, rfl, hm⟩, fun _ => trivial⟩
      · simp only [_merge_outcome, if_neg hm]
        constructor
        · rintro ⟨⟩
        · rintro ⟨r', hr', hm'⟩
          cases hr'
          exact absurd hm' hm
    · intro r' hr' hm
      injection hr' with hrr
      subst hrr
      simp [_merge_outcome, if_neg hm]

/-- C9 witness: a response without a true `merged` flag is reported with the
platform-provided message. -/
theorem merge_outcome_classification_witness :
    _merge_outcome (some ⟨some false, some "nope"⟩) = MergeOutcome.failed "nope" :=
  (merge_outcome_classification (some ⟨some false, some "nope"⟩)).2.2
    ⟨some false, some "nope"⟩ rfl (by decide)

/-! ## Error handling of failed platform calls -/

/-- C6 (counterexample): with both fatal configuration preconditions passed
(non-empty token and repository), a failed page of the open-PR list makes the
run exit fatally (`sys.exit(1)` on line 232) — contradicting the claim that a
failed platform call is never propagated as a fatal error. -/
theorem pr_list_failure_fatal_counterexample :
    ("tok" : String) ≠ "" ∧ ("owner/repo" : String) ≠ ""
      ∧ main_fetch "tok" "owner/repo" (fun _ => none) 5 = FetchResult.fatalExit :=
  ⟨by decide, by decide, rfl⟩

/-- C6 (amended): every failed platform call other than an open-PR-list page
is treated by its call site as an empty/negative result — check-run fetch
failure classifies as `pending`, comment-list failure finds no bot comment and
the upsert creates a fresh comment, merge failure is reported as
`"no response"`, label-fetch failure leads to a creation request — while a
failed open-PR-list page aborts the whole run even after the two fatal
configuration preconditions have passed. -/
theorem platform_failures_sentinel_except_pr_list :
    (_ci_status none = "pending")
    ∧ (_bot_comment_id none = none)
    ∧ (∀ pr body, _upsert_comment pr body none = AgentAction.postComment pr (full_body body))
    ∧ (_merge_outcome none = MergeOutcome.failed "no response")
    ∧ (∀ lbl color, _ensure_label_exists lbl color none = [AgentAction.createLabel lbl color])
    ∧ (∀ pages fuel page acc, pages page = none →
        fetch_open_prs pages (fuel + 1) page acc = FetchResult.fatalExit)
    ∧ (∀ token repo pages fuel, token ≠ "" → repo ≠ "" → pages 1 = none →
        main_fetch token repo pages (fuel + 1) = FetchResult.fatalExit) := by
  refine ⟨rfl, rfl, fun pr body => rfl, rfl, fun lbl color => rfl, ?_, ?_⟩
  · intro pages fuel page acc hfail
    simp [fetch_open_prs, hfail]
  · intro token repo pages fuel htok hrepo hfail
    simp [main_fetch, htok, hrepo, fetch_open_prs, hfail]

/-- C6 witness: concrete failing page, config preconditions satisfied. -/
theorem platform_failures_sentinel_except_pr_list_witness :
    main_fetch "t" "o/r" (fun _ => none) 4 = FetchResult.fatalExit :=
  platform_failures_sentinel_except_pr_list.2.2.2.2.2.2 "t" "o/r" (fun _ => none) 3
    (by decide) (by decide) rfl

/-! ## Comment upsert -/

lemma isPrefixOf_append_self (l t : List Char) : l.isPrefixOf (l ++ t) = true := by
  induction l with
  | nil => simp [List.isPrefixOf]
  | cons c l ih => simp [List.isPrefixOf, ih]

lemma has_sub_append_self (l t : List Char) : has_sub (l ++ t) l = true := by
  cases l with
  | nil =>
    cases t with
    | nil => rfl
    | cons c t' => simp [has_sub, List.isPrefixOf]
  | cons c l' => simp [has_sub, isPrefixOf_append_self]

lemma full_body_contains_marker (b : String) :
    str_contains (full_body b) _BOT_COMMENT_MARKER = true := by
  unfold str_contains full_body
  rw [String.data_append, String.data_append]
  rw [List.append_assoc]
  exact has_sub_append_self _ _

lemma filter_marked_map_update (full : String) :
    ∀ (cs : List IssueComment) (c0 : IssueComment),
      (cs.map IssueComment.id).Nodup →
      cs.countP is_bot_comment ≤ 1 →
      cs.find? is_bot_comment = some c0 →
      is_bot_comment ⟨c0.id, full⟩ = true →
      (cs.map (fun c => if c.id = c0.id then (⟨c.id, full⟩ : IssueComment) else c)).filter
        is_bot_comment = [⟨c0.id, full⟩] := by
  intro cs
  induction cs with
  | nil =>
    intro c0 _ _ hfind _
    cases hfind
  | cons c tl ih =>
    intro c0 hnodup hcount hfind hmf
    by_cases hm : is_bot_comment c
    · rw [List.find?_cons_of_pos _ hm] at hfind
      injection hfind with h0
      subst h0
      have hcount0 : tl.countP is_bot_comment = 0 := by
        rw [List.countP_cons_of_pos _ _ hm] at hcount
        omega
      have hids : c.id ∉ tl.map IssueComment.id := (List.nodup_cons.mp hnodup).1
      have hmap : tl.map (fun x => if x.id = c.id then (⟨x.id, full⟩ : IssueComment) else x) = tl := by
        rw [List.map_congr_left (g := id), List.map_id]
        intro x hx
        simp only [id]
        rw [if_neg]
        intro hcon
        exact hids (by rw [← hcon]; exact List.mem_map_of_mem IssueComment.id hx)
      rw [List.map_cons, if_pos rfl, hmap, List.filter_cons_of_pos hmf]
      have hnil : tl.filter is_bot_comment = [] := by
        rw [List.filter_eq_nil]
        intro a ha
        have := List.countP_eq_zero.mp hcount0 a ha
        simpa using this
      rw [hnil]
    · rw [List.find?_cons_of_neg _ hm] at hfind
      have hc0tl : c0 ∈ tl := List.mem_of_find?_eq_some hfind
      have hids : c.id ∉ tl.map IssueComment.id := (List.nodup_cons.mp hnodup).1
      have hcne : c.id ≠ c0.id := by
        intro hcon
        exact hids (by rw [hcon]; exact List.mem_map_of_mem IssueComment.id hc0tl)
      have hcount' : tl.countP is_bot_comment ≤ 1 := by
        rwa [List.countP_cons_of_neg _ _ hm] at hcount
      rw [List.map_cons, if_neg hcne, List.filter_cons_of_neg hm]
      exact ih c0 (List.nodup_cons.mp hnodup).2 hcount' hfind hmf

lemma filter_marked_append_new (cs : List IssueComment) (newc : IssueComment)
    (hnone : cs.find? is_bot_comment = none)
    (hmf : is_bot_comment newc = true) :
    (cs ++ [newc]).filter is_bot_comment = [newc] := by
  have hnil : cs.filter is_bot_comment = [] := by
    rw [List.filter_eq_nil]
    intro a ha
    have := List.find?_eq_none.mp hnone a ha
    simpa using this
  simp [List.filter_append, hnil, hmf]

/-- C5 (counterexample): with two marked comments already present, the upsert
patches only the first, so two marked comments remain — "exactly one comment
containing the marker exists" fails for this complete listing. -/
theorem upsert_two_marked_comments_counterexample :
    (upsert_apply [⟨1, "<!-- pr-agent-bot -->"⟩, ⟨2, "<!-- pr-agent-bot -->"⟩] 9 1 "b").countP
      is_bot_comment ≠ 1 := by decide

/-- C5 (amended): for every complete comment listing whose comment ids are
distinct and nonzero and which contains at most one marked comment, the upsert
leaves exactly one comment containing the marker, that comment's content is
`marker + "\n" + bodyText`, an existing first marked comment is updated in
place keeping its identity, and a new comment is created when none was
marked. -/
theorem upsert_converges_unique_marked (cs : List IssueComment) (pr_number : Nat)
    (body : String) (fresh_id : Nat)
    (hids : (cs.map IssueComment.id).Nodup)
    (hnz : ∀ c ∈ cs, c.id ≠ 0)
    (hone : cs.countP is_bot_comment ≤ 1) :
    ((upsert_apply cs fresh_id pr_number body).countP is_bot_comment = 1)
    ∧ (∀ c ∈ upsert_apply cs fresh_id pr_number body,
        is_bot_comment c = true → c.body = full_body body)
    ∧ (∀ c0, cs.find? is_bot_comment = some c0 →
        upsert_apply cs fresh_id pr_number body
          = cs.map (fun c => if c.id = c0.id then (⟨c.id, full_body body⟩ : IssueComment) else c))
    ∧ (cs.find? is_bot_comment = none →
        upsert_apply cs fresh_id pr_number body = cs ++ [⟨fresh_id, full_body body⟩]) := by
  rcases hfind : cs.find? is_bot_comment with _ | c0
  · have happ : upsert_apply cs fresh_id pr_number body = cs ++ [⟨fresh_id, full_body body⟩] := by
      unfold upsert_apply _upsert_comment _bot_comment_id
      simp [hfind, apply_comment_action]
    have hmf : is_bot_comment (⟨fresh_id, full_body body⟩ : IssueComment) = true :=
      full_body_contains_marker body
    have hfilter := filter_marked_append_new cs ⟨fresh_id, full_body body⟩ hfind hmf
    refine ⟨?_, ?_, ?_, fun _ => happ⟩
    · rw [happ, List.countP_eq_length_filter, hfilter]
      rfl
    · intro c hc hmc
      rw [happ] at hc
      have hmem : c ∈ (cs ++ [(⟨fresh_id, full_body body⟩ : IssueComment)]).filter is_bot_comment :=
        List.mem_filter.mpr ⟨hc, hmc⟩
      rw [hfilter, List.mem_singleton] at hmem
      rw [hmem]
    · intro c0 hc0
      simp at hc0
  · have hc0mem : c0 ∈ cs := List.mem_of_find?_eq_some hfind
    have hc0id : c0.id ≠ 0 := hnz c0 hc0mem
    have hmf : is_bot_comment (⟨c0.id, full_body body⟩ : IssueComment) = true :=
      full_body_contains_marker body
    have happ : upsert_apply cs fresh_id pr_number body
        = cs.map (fun c => if c.id = c0.id then (⟨c.id, full_body body⟩ : IssueComment) else c) := by
      unfold upsert_apply _upsert_comment _bot_comment_id
      simp [hfind, hc0id, apply_comment_action]
    have hfilter := filter_marked_map_update (full_body body) cs c0 hids hone hfind hmf
    refine ⟨?_, ?_, ?_, ?_⟩
    · rw [happ, List.countP_eq_length_filter, hfilter]
      rfl
    · intro c hc hmc
      rw [happ] at hc
      have hmem : c ∈ (cs.map (fun c => if c.id = c0.id then
          (⟨c.id, full_body body⟩ : IssueComment) else c)).filter is_bot_comment :=
        List.mem_filter.mpr ⟨hc, hmc⟩
      rw [hfilter, List.mem_singleton] at hmem
      rw [hmem]
    · intro c0' hc0'
      injection hc0' with h0
      subst h0
      exact happ
    · intro hnone
      simp at hnone

/-- C5 witness: one marked comment with nonzero id; the upsert leaves exactly
one marked comment. -/
theorem upsert_converges_unique_marked_witness :
    ((([⟨1, "<!-- pr-agent-bot -->\nold"⟩] : List IssueComment).map IssueComment.id).Nodup
      ∧ (∀ c ∈ ([⟨1, "<!-- pr-agent-bot -->\nold"⟩] : List IssueComment), c.id ≠ 0)
      ∧ ([⟨1, "<!-- pr-agent-bot -->\nold"⟩] : List IssueComment).countP is_bot_comment ≤ 1)
    ∧ (upsert_apply [⟨1, "<!-- pr-agent-bot -->\nold"⟩] 2 1 "new").countP is_bot_comment = 1 :=
  ⟨⟨by decide, by decide, by decide⟩,
    (upsert_converges_unique_marked [⟨1, "<!-- pr-agent-bot -->\nold"⟩] 1 "new" 2
      (by decide) (by decide) (by decide)).1⟩

/-! ## Witnesses for the reconciler theorems -/

/-- C3 witness (scenario 4 of the spec): stale `ci-failing` removed,
`ci-passing` added, at a concrete label set. -/
theorem reconcile_delta_sets_witness :
    ("ci-passing" ∈ _CI_LABELS)
    ∧ (deleted_labels 3 (_set_ci_label 3 {"ci-failing", "auto-merge"} "ci-passing")
          = (({"ci-failing", "auto-merge"} : Finset String) ∩ _CI_LABELS) \ {"ci-passing"}
      ∧ added_labels 3 (_set_ci_label 3 {"ci-failing", "auto-merge"} "ci-passing")
          = (if "ci-passing" ∈ ({"ci-failing", "auto-merge"} : Finset String) then
              (∅ : Finset String) else {"ci-passing"})) :=
  ⟨by decide, reconcile_delta_sets 3 {"ci-failing", "auto-merge"} "ci-passing" (by decide)⟩

/-- C4 witness: exclusivity at a concrete label set. -/
theorem reconcile_label_exclusivity_witness :
    ("ci-passing" ∈ _CI_LABELS)
    ∧ (apply_reconcile {"ci-failing", "auto-merge"} "ci-passing" ∩ _CI_LABELS = {"ci-passing"}
      ∧ (apply_reconcile {"ci-failing", "auto-merge"} "ci-passing" ∩ _CI_LABELS).card = 1) :=
  ⟨by decide, reconcile_label_exclusivity {"ci-failing", "auto-merge"} "ci-passing" (by decide)⟩

/-- C7 witness: the second reconcile after applying the delta is empty at a
concrete label set. -/
theorem reconcile_idempotent_witness :
    ("ci-passing" ∈ _CI_LABELS)
    ∧ (reconcile_toRemove (apply_reconcile {"ci-failing"} "ci-passing") "ci-passing" = ∅
      ∧ reconcile_toAdd (apply_reconcile {"ci-failing"} "ci-passing") "ci-passing" = ∅) :=
  ⟨by decide, reconcile_idempotent {"ci-failing"} "ci-passing" (by decide)⟩

/-- C8 witness: `auto-merge` is in neither delta set and survives
reconciliation at a concrete label set. -/
theorem reconcile_frame_nonci_labels_witness :
    ("ci-passing" ∈ _CI_LABELS ∧ "auto-merge" ∉ _CI_LABELS)
    ∧ (("auto-merge" ∉ reconcile_toRemove {"ci-failing", "auto-merge"} "ci-passing"
        ∧ "auto-merge" ∉ reconcile_toAdd {"ci-failing", "auto-merge"} "ci-passing")
      ∧ (_LABEL_AUTO_MERGE ∉ reconcile_toRemove {"ci-failing", "auto-merge"} "ci-passing"
        ∧ _LABEL_AUTO_MERGE ∉ reconcile_toAdd {"ci-failing", "auto-merge"} "ci-passing")
      ∧ ("auto-merge" ∈ apply_reconcile {"ci-failing", "auto-merge"} "ci-passing"
          ↔ "auto-merge" ∈ ({"ci-failing", "auto-merge"} : Finset String))) :=
  ⟨⟨by decide, by decide⟩,
    reconcile_frame_nonci_labels {"ci-failing", "auto-merge"} "ci-passing" "auto-merge"
      (by decide) (by decide)⟩
